import Mathlib

/-!
Verification of the PokeSharp pokeemerald map/tileset converter
(`tools/PokeemeraldMapConverter`).  Binary buffers are modelled as
`List Nat` of byte values, 16-bit words as `Nat`, and Python exceptions as
`Option`/`none`.  Each definition is a direct transcription of the
corresponding Python function.
-/

set_option maxHeartbeats 1000000

namespace PokeSharp

/-- Little-endian 16-bit read at byte offset `off` (models `struct.unpack('<H', ...)`;
out-of-range bytes read as 0, used only where the source guarantees bounds). -/
def u16le (data : List Nat) (off : Nat) : Nat :=
  data.getD off 0 + 256 * data.getD (off + 1) 0

/-- Big-endian 32-bit read at byte offset `off` (models `struct.unpack('>I', ...)`). -/
def u32be (data : List Nat) (off : Nat) : Nat :=
  ((data.getD off 0 * 256 + data.getD (off + 1) 0) * 256 + data.getD (off + 2) 0) * 256
    + data.getD (off + 3) 0

/-- The 8 little-endian u16 tile words of the 16-byte metatile record `i`
(models `struct.unpack('<8H', data[offset:offset+16])`). -/
def recordWords (data : List Nat) (i : Nat) : List Nat :=
  (List.range 8).map fun q => u16le data (16 * i + 2 * q)

/-- Effectful map over `Option`, modelling a Python loop whose body may raise:
the first iteration that raises aborts the whole loop. -/
def collectSome (f : α → Option β) : List α → Option (List β)
  | [] => some []
  | a :: as => (f a).bind fun b => (collectSome f as).map (b :: ·)

namespace ConvertMap

/-- Attribute record of `convert_map_8x8.MetatileAttributes`: 16-bit raw value,
`behavior = raw & 0x00FF`, `layer_type = (raw >> 12) & 0xF`. -/
structure MetatileAttributesM where
  behavior : Nat
  layer_type : Nat
  deriving Repr, DecidableEq

/-- Constructor `MetatileAttributes.__init__` of `convert_map_8x8.py`. -/
def MetatileAttributesM.ofRaw (raw : Nat) : MetatileAttributesM :=
  { behavior := raw &&& 0xFF, layer_type := (raw >>> 12) &&& 0xF }

/-- The `TileRef` dataclass of `convert_map_8x8.py`. -/
structure TileRef where
  gid : Nat
  h_flip : Bool
  v_flip : Bool
  deriving Repr, DecidableEq

/-- The nested `parse_tile` function of `load_metatiles_from_pokeemerald`:
`gid = (raw & 0x3FF) + 1`, `h_flip = bool(raw & 0x400)`, `v_flip = bool(raw & 0x800)`. -/
def parse_tile (raw : Nat) : TileRef :=
  { gid := (raw &&& 0x3FF) + 1
    h_flip := decide (raw &&& 0x400 ≠ 0)
    v_flip := decide (raw &&& 0x800 ≠ 0) }

/-- The `MetatileDefinition` class of `convert_map_8x8.py` (behavior name string omitted). -/
structure MetatileDefinition where
  metatile_id : Nat
  tiles : List TileRef
  top_tiles : List TileRef
  behavior : Nat
  layer_type : Nat
  deriving Repr, DecidableEq

/-- The attribute-parsing loop of `load_metatiles_from_pokeemerald`:
`for i in range(0, len(attributes_data), 2)` keeping only complete 2-byte slices,
each decoded as a little-endian u16.  A trailing odd byte is discarded. -/
def attributeWords : List Nat → List Nat
  | b0 :: b1 :: rest => (b0 + 256 * b1) :: attributeWords rest
  | [] => []
  | [_] => []

/-- The body of `load_metatiles_from_pokeemerald` after both files are read:
`metatile_count = len(metatiles_data) // 16`; each record unpacks 8 u16 words,
the first 4 are the bottom tiles and the last 4 the top tiles; the attribute for
record `mid` is `attributes[mid]` when present, else `MetatileAttributes(0)`. -/
def loadMapMetatiles (metatilesData attributesData : List Nat) : List MetatileDefinition :=
  let attributes := (attributeWords attributesData).map MetatileAttributesM.ofRaw
  (List.range (metatilesData.length / 16)).map fun mid =>
    let raws := recordWords metatilesData mid
    { metatile_id := mid
      tiles := (raws.take 4).map parse_tile
      top_tiles := (raws.drop 4).map parse_tile
      behavior := (attributes.getD mid (MetatileAttributesM.ofRaw 0)).behavior
      layer_type := (attributes.getD mid (MetatileAttributesM.ofRaw 0)).layer_type }

/-- The `TilesetData` dictionary keyed by metatile id (`metatiles: Dict[int, ...]`). -/
abbrev TilesetData := List (Nat × MetatileDefinition)

/-- `TilesetData.get_metatile`: dictionary lookup returning `None` on a missing key. -/
def getMetatile (ts : TilesetData) (mid : Nat) : Option MetatileDefinition :=
  ts.lookup mid

/-- Building a `TilesetData` from the list returned by `load_metatiles_from_pokeemerald`
(each definition is stored under its own `metatile_id`). -/
def tilesetOfDefs (defs : List MetatileDefinition) : TilesetData :=
  defs.map fun d => (d.metatile_id, d)

/-- Horizontal-flip flag used for Tiled GIDs (`H_FLIP_BIT = 0x80000000`). -/
def H_FLIP_BIT : Nat := 0x80000000

/-- Vertical-flip flag used for Tiled GIDs (`V_FLIP_BIT = 0x40000000`). -/
def V_FLIP_BIT : Nat := 0x40000000

/-- The nested `apply_flip` function of `convert_pokeemerald_map`: `None` or gid 0
give 0, otherwise the gid with the flip bits or-ed in. -/
def apply_flip : Option TileRef → Nat
  | none => 0
  | some r =>
    if r.gid = 0 then 0
    else (r.gid ||| (if r.h_flip then H_FLIP_BIT else 0)) ||| (if r.v_flip then V_FLIP_BIT else 0)

/-- Per 8x8-tile-cell lookup of `convert_pokeemerald_map`'s layer loop:
`raw_value = map_data[y // 2][x // 2]`, `metatile_id = raw_value & 0x3FF`,
`tile_index = (y % 2) * 2 + (x % 2)`, then the bottom/top refs from the metatile
(or `None` when the id has no record). -/
def layerCellRefs (mapData : List (List Nat)) (ts : TilesetData) (x y : Nat) :
    Option TileRef × Option TileRef :=
  let raw := (mapData.getD (y / 2) []).getD (x / 2) 0
  let mid := raw &&& 0x3FF
  let ti := (y % 2) * 2 + (x % 2)
  match getMetatile ts mid with
  | some m => (m.tiles.get? ti, m.top_tiles.get? ti)
  | none => (none, none)

/-- The `bottom_layer_data` array built by `convert_pokeemerald_map` (row-major over
`height_tiles x width_tiles` where each metatile contributes 2x2 tile cells). -/
def bottomLayerData (mapData : List (List Nat)) (ts : TilesetData) : List Nat :=
  let h := mapData.length
  let w := (mapData.getD 0 []).length
  (List.range (h * 2)).flatMap fun y =>
    (List.range (w * 2)).map fun x => apply_flip (layerCellRefs mapData ts x y).1

/-- Per-cell metadata emitted into the `MetatileData` object layer of
`convert_pokeemerald_map`. -/
structure CellMeta where
  metatile_id : Nat
  collision_bits : Nat
  elevation : Nat
  is_solid : Bool
  deriving Repr, DecidableEq

/-- The metadata decoding of `convert_pokeemerald_map`'s object loop:
`metatile_id = raw & 0x3FF`, `collision_bits = (raw >> 10) & 0x3`,
`elevation = (raw >> 12) & 0xF`, `is_solid = (collision_bits == 3)`. -/
def cellMetadata (raw : Nat) : CellMeta :=
  { metatile_id := raw &&& 0x3FF
    collision_bits := (raw >>> 10) &&& 0x3
    elevation := (raw >>> 12) &&& 0xF
    is_solid := decide ((raw >>> 10) &&& 0x3 = 3) }

end ConvertMap

namespace BorderFix

/-- `border_tile_fix.get_border_metatile`: raises (`none`) unless the pattern has
exactly 4 entries, otherwise returns `border_tiles[((x+1)&1) + (((y+1)&1)*2)]`. -/
def get_border_metatile (border_tiles : List Nat) (x y : Nat) : Option Nat :=
  if border_tiles.length ≠ 4 then none
  else some (border_tiles.getD (((x + 1) &&& 1) + (((y + 1) &&& 1) * 2)) 0)

/-- `border_tile_fix.apply_border_fallback`: every map cell with id 0 or 1 is
replaced by the checkerboard border metatile (or `default_metatile` when no
border pattern is loaded); other cells pass through.  A malformed pattern makes
`get_border_metatile` raise, which propagates. -/
def apply_border_fallback (mapData : List (List Nat)) (border_tiles : Option (List Nat))
    (default_metatile : Nat := 2) : Option (List (List Nat)) :=
  let height := mapData.length
  let width := (mapData.getD 0 []).length
  collectSome
    (fun y =>
      collectSome
        (fun x =>
          let metatile_id := (mapData.getD y []).getD x 0
          if metatile_id ≤ 1 then
            match border_tiles with
            | some b => get_border_metatile b x y
            | none => some default_metatile
          else some metatile_id)
        (List.range width))
    (List.range height)

end BorderFix

namespace RenderTileset

/-- Tile-index field of a raw tile word (`raw_tile & 0x3FF` in
`get_tile_palette_index`). -/
def tileIdOfRaw (raw : Nat) : Nat := raw &&& 0x3FF

/-- Palette field of a raw tile word (`(raw_tile >> 12) & 0xF`). -/
def paletteOfRaw (raw : Nat) : Nat := (raw >>> 12) &&& 0xF

/-- Inner loop of `get_tile_palette_index`: scan the 8 tile words of one record in
order, returning the palette field of the first word whose tile index matches. -/
def scanTiles (tiles : List Nat) (tile_idx : Nat) : Option Nat :=
  match tiles with
  | [] => none
  | raw :: rest =>
    if tileIdOfRaw raw = tile_idx then some (paletteOfRaw raw) else scanTiles rest tile_idx

/-- `render_tileset_with_palettes.get_tile_palette_index`: scan all
`len(data) // 16` metatile records in order (8 words each, in unpack order) and
return the palette field of the first matching tile word, defaulting to 0. -/
def get_tile_palette_index (data : List Nat) (tile_idx : Nat) : Nat :=
  ((List.range (data.length / 16)).findSome? fun i =>
    scanTiles (recordWords data i) tile_idx).getD 0

/-- All tile words of the metatile table, flattened in record order and, within a
record, in unpack (quadrant) order. -/
def allTileWords (data : List Nat) : List Nat :=
  (List.range (data.length / 16)).flatMap (recordWords data)

/-- Statement-side selection rule of the spec: the palette field of the first
tile word in `allTileWords` whose tile index matches, else 0. -/
def firstMatchPalette (data : List Nat) (tile_idx : Nat) : Nat :=
  match (allTileWords data).find? fun raw => tileIdOfRaw raw == tile_idx with
  | some raw => paletteOfRaw raw
  | none => 0

/-- One RGB palette entry. -/
abbrev RGB := Nat × Nat × Nat

/-- Per-pixel compositing rule of `render_tileset_with_palettes` (lines 164-174):
index 0 is fully transparent, an in-bounds index is the palette entry at alpha
255, an out-of-bounds index is opaque black. -/
def renderPixel (palette : List RGB) (color_idx : Nat) : Nat × Nat × Nat × Nat :=
  if color_idx = 0 then (0, 0, 0, 0)
  else if color_idx < palette.length then
    let c := palette.getD color_idx (0, 0, 0)
    (c.1, c.2.1, c.2.2, 255)
  else (0, 0, 0, 255)

/-- The palette store: the dictionary built by `load_all_palettes`, keyed by the
integer filename stem. -/
abbrev PaletteStore := List (Nat × List RGB)

/-- The lookup `palettes.get(palette_idx, palettes[0])` of
`render_tileset_with_palettes`.  Python evaluates the default argument
`palettes[0]` eagerly, so the call raises `KeyError` (`none`) whenever key 0 is
absent from the store, and otherwise returns the requested palette when present,
else the palette stored at key 0. -/
def resolvePalette (palettes : PaletteStore) (palette_idx : Nat) : Option (List RGB) :=
  match List.lookup 0 palettes with
  | none => none
  | some d => some ((List.lookup palette_idx palettes).getD d)

/-- The 8-byte PNG signature checked by `read_png_indexed_data`. -/
def pngMagic : List Nat := [137, 80, 78, 71, 13, 10, 26, 10]

/-- Chunk-type tag `b'PLTE'`. -/
def plteTag : List Nat := [80, 76, 84, 69]

/-- Chunk-type tag `b'IDAT'`. -/
def idatTag : List Nat := [73, 68, 65, 84]

/-- The chunk walk of `read_png_indexed_data`: from position `pos`, read a
4-byte big-endian length, 4-byte type and payload, remember the last `PLTE`
payload and concatenate all `IDAT` payloads, advancing by `12 + length`.
Each iteration advances `pos` by at least 12, so the Python `while` loop runs at
most `len(png_data)` times; `fuel` is structural-recursion fuel that is never
exhausted when instantiated with `data.length`. -/
def collectChunks (data : List Nat) (fuel pos : Nat) : Option (List Nat) × List Nat :=
  match fuel with
  | 0 => (none, [])
  | fuel + 1 =>
    if pos < data.length then
      let len := u32be data pos
      let ctype := (data.drop (pos + 4)).take 4
      let cdata := (data.drop (pos + 8)).take len
      let rest := collectChunks data fuel (pos + 12 + len)
      (match rest.1 with
       | some p => some p
       | none => if ctype = plteTag then some cdata else none,
       if ctype = idatTag then cdata ++ rest.2 else rest.2)
    else (none, [])

/-- The scanline unpacking of `read_png_indexed_data`: each scanline is one
filter byte followed by `(width+1)//2` data bytes holding two 4-bit pixels each
(high nibble first), trimmed to `width` pixels. -/
def parseScanlines (raw_data : List Nat) (width height : Nat) : List (List Nat) :=
  let bytes_per_scanline := (width + 1) / 2
  (List.range height).map fun y =>
    let scanline := (raw_data.drop (y * (bytes_per_scanline + 1) + 1)).take bytes_per_scanline
    (scanline.flatMap fun b => [(b >>> 4) &&& 0xF, b &&& 0xF]).take width

/-- `render_tileset_with_palettes.read_png_indexed_data`.  `inflate` abstracts
`zlib.decompress` (`none` models a decompression error).  The function raises
(`none`) only when the 8-byte signature mismatches or decompression fails; width
and height are read from fixed offsets 16 and 20, and the IHDR bit-depth and
color-type bytes are never inspected. -/
def read_png_indexed_data (inflate : List Nat → Option (List Nat)) (png_data : List Nat) :
    Option (Nat × Nat × List (List Nat) × Option (List Nat)) :=
  if png_data.take 8 ≠ pngMagic then none
  else
    let width := u32be png_data 16
    let height := u32be png_data 20
    let chunks := collectChunks png_data png_data.length 8
    match inflate chunks.2 with
    | none => none
    | some raw_data => some (width, height, parseScanlines raw_data width height, chunks.1)

end RenderTileset

namespace ConvertTileset

/-- The `MetatileAttributes` class of `convert_tileset_8x8.py` (4-byte variant). -/
structure MetatileAttributesT where
  behavior : Nat
  terrain : Nat
  encounter_type : Nat
  layer_type : Nat
  deriving Repr, DecidableEq

/-- `MetatileAttributes.from_bytes`: `behavior, terrain_and_layer = unpack('<HH')`,
`terrain = t & 0xF`, `encounter_type = (t >> 4) & 0x7`, `layer_type = (t >> 7) & 0x3`. -/
def MetatileAttributesT.from_bytes (b : List Nat) : MetatileAttributesT :=
  let behavior := u16le b 0
  let terrain_and_layer := u16le b 2
  { behavior := behavior
    terrain := terrain_and_layer &&& 0xF
    encounter_type := (terrain_and_layer >>> 4) &&& 0x7
    layer_type := (terrain_and_layer >>> 7) &&& 0x3 }

/-- The attribute-parsing section of `convert_tileset_8x8.load_metatiles`
(lines 200-217): `expected = len(metatiles) // 8`; a buffer shorter than
`expected * 4` is padded with `b'\x00\x00\x00\x00' * (expected - len // 4)`;
then records are read 4 bytes at a time up to `min(len, expected * 4)`, an
incomplete final slice being zero-padded. -/
def parseAttributes (metatilesLen : Nat) (attributesData : List Nat) : List MetatileAttributesT :=
  let expected_metatiles := metatilesLen / 8
  let expected_size := expected_metatiles * 4
  let data :=
    if attributesData.length < expected_size then
      attributesData ++ List.replicate (4 * (expected_metatiles - attributesData.length / 4)) 0
    else attributesData
  (List.range ((min data.length expected_size + 3) / 4)).map fun step =>
    let chunk := (data.drop (4 * step)).take 4
    MetatileAttributesT.from_bytes (chunk ++ List.replicate (4 - chunk.length) 0)

/-- The `Metatile` class of `convert_tileset_8x8.py`: 4 tile words plus attributes. -/
structure MetatileT where
  tiles : List Nat
  attributes : MetatileAttributesT
  deriving Repr, DecidableEq

/-- `Metatile.from_bytes`: `struct.unpack('<4H', data)` raises (`none`) unless the
slice holds exactly 8 bytes. -/
def MetatileT.from_bytes (b : List Nat) (attrs : MetatileAttributesT) : Option MetatileT :=
  if b.length = 8 then
    some { tiles := [u16le b 0, u16le b 2, u16le b 4, u16le b 6], attributes := attrs }
  else none

/-- `convert_tileset_8x8.load_metatiles`: parse attributes, then
`for i in range(0, len(metatiles_data), 8)` decode each 8-byte slice, taking the
attribute at the record's index or an all-zero default.  An incomplete final
slice makes `struct.unpack` raise, aborting the whole loop. -/
def load_metatiles (metatilesData : List Nat) (attributesFile : Option (List Nat)) :
    Option (List MetatileT) :=
  let attributesData :=
    match attributesFile with
    | some d => d
    | none => List.replicate (4 * (metatilesData.length / 8)) 0
  let attributes := parseAttributes metatilesData.length attributesData
  collectSome
    (fun idx =>
      let metatile_bytes := (metatilesData.drop (8 * idx)).take 8
      MetatileT.from_bytes metatile_bytes (attributes.getD idx ⟨0, 0, 0, 0⟩))
    (List.range ((metatilesData.length + 7) / 8))

end ConvertTileset

namespace Scenario

/-- Concrete `metatiles.bin` content with 6 records; record `r`, word `q` holds
tile index `8*r + q` (palette 0, no flips), so every record references distinct
tiles. -/
def c5MetatilesBytes : List Nat :=
  (List.range 6).flatMap fun r => (List.range 8).flatMap fun q => [8 * r + q, 0]

/-- The primary tileset loaded from `c5MetatilesBytes` with an empty attributes
buffer, keyed by metatile id as `convert_pokeemerald_map` builds it. -/
def c5Tileset : ConvertMap.TilesetData :=
  ConvertMap.tilesetOfDefs (ConvertMap.loadMapMetatiles c5MetatilesBytes [])

/-- The 2x2 map grid of metatile ids `[0, 1, 5, 0]` from the end-to-end scenario. -/
def c5MapData : List (List Nat) := [[0, 1], [5, 0]]

/-- The border pattern `[2, 3, 4, 5]` from the end-to-end scenario. -/
def c5BorderPattern : List Nat := [2, 3, 4, 5]

/-- A concrete PNG container whose IHDR declares bit depth 8 and color type 6
(8-bit RGBA truecolor, not 4-bit indexed and not 8-bit grayscale): signature,
IHDR chunk (width 8, height 1, depth 8, color type 6), one 2-byte IDAT chunk,
IEND.  CRC fields are zero; the reader never checks them. -/
def c8BadModeData : List Nat :=
  RenderTileset.pngMagic
    ++ [0, 0, 0, 13] ++ [73, 72, 68, 82]
    ++ [0, 0, 0, 8, 0, 0, 0, 1, 8, 6, 0, 0, 0] ++ [0, 0, 0, 0]
    ++ [0, 0, 0, 2] ++ RenderTileset.idatTag ++ [1, 2] ++ [0, 0, 0, 0]
    ++ [0, 0, 0, 0] ++ [73, 69, 78, 68] ++ [0, 0, 0, 0]

/-- A stand-in for `zlib.decompress` that succeeds, returning one scanline
(filter byte 0 followed by four packed bytes). -/
def c8Inflate : List Nat → Option (List Nat) := fun _ => some [0, 171, 205, 239, 18]

end Scenario

/-! Bridging lemmas between the bitwise operations of the source and their
arithmetic readings. -/

theorem land_1023 (x : Nat) : x &&& 1023 = x % 1024 := by
  have h := Nat.and_pow_two_sub_one_eq_mod x 10
  norm_num at h
  exact h

theorem land_255 (x : Nat) : x &&& 255 = x % 256 := by
  have h := Nat.and_pow_two_sub_one_eq_mod x 8
  norm_num at h
  exact h

theorem land_15 (x : Nat) : x &&& 15 = x % 16 := by
  have h := Nat.and_pow_two_sub_one_eq_mod x 4
  norm_num at h
  exact h

theorem land_3 (x : Nat) : x &&& 3 = x % 4 := by
  have h := Nat.and_pow_two_sub_one_eq_mod x 2
  norm_num at h
  exact h

theorem land_pow2_ne_zero (x n : Nat) : x &&& 2 ^ n ≠ 0 ↔ x / 2 ^ n % 2 = 1 := by
  rw [Nat.and_two_pow, Nat.testBit_to_div_mod]
  rcases Nat.mod_two_eq_zero_or_one (x / 2 ^ n) with h | h <;> simp [h]

/-- C1: for every 16-bit TileBitfield value `v`, decoding recovers
`tile_index = v & 0x3FF` (carried as `gid = tile_index + 1`),
`h_flip = bool(v & 0x400)`, `v_flip = bool(v & 0x800)` and
`palette_key = (v >> 12) & 0xF`, and re-packing the four fields reproduces `v`. -/
theorem c1_tileBitfield_roundtrip (v : Nat) (hv : v < 65536) :
    (ConvertMap.parse_tile v).gid = (v &&& 0x3FF) + 1 ∧
    ((ConvertMap.parse_tile v).h_flip = true ↔ v &&& 0x400 ≠ 0) ∧
    ((ConvertMap.parse_tile v).v_flip = true ↔ v &&& 0x800 ≠ 0) ∧
    RenderTileset.paletteOfRaw v = (v >>> 12) &&& 0xF ∧
    (v &&& 0x3FF) + 1024 * (if (ConvertMap.parse_tile v).h_flip then 1 else 0)
      + 2048 * (if (ConvertMap.parse_tile v).v_flip then 1 else 0)
      + 4096 * RenderTileset.paletteOfRaw v = v := by
  have e2 : (if (ConvertMap.parse_tile v).h_flip then 1 else 0) = v / 1024 % 2 := by
    by_cases h : v &&& 1024 ≠ 0
    · have h1 := (land_pow2_ne_zero v 10).mp (by norm_num; exact h)
      norm_num at h1
      simp [ConvertMap.parse_tile, h, h1]
    · have h1 : ¬ (v / 1024 % 2 = 1) := fun hc => h (by
        have h2 := (land_pow2_ne_zero v 10).mpr (by norm_num; exact hc)
        norm_num at h2; exact h2)
      have h3 : v / 1024 % 2 = 0 := by omega
      simp [ConvertMap.parse_tile, h, h3]
  have e3 : (if (ConvertMap.parse_tile v).v_flip then 1 else 0) = v / 2048 % 2 := by
    by_cases h : v &&& 2048 ≠ 0
    · have h1 := (land_pow2_ne_zero v 11).mp (by norm_num; exact h)
      norm_num at h1
      simp [ConvertMap.parse_tile, h, h1]
    · have h1 : ¬ (v / 2048 % 2 = 1) := fun hc => h (by
        have h2 := (land_pow2_ne_zero v 11).mpr (by norm_num; exact hc)
        norm_num at h2; exact h2)
      have h3 : v / 2048 % 2 = 0 := by omega
      simp [ConvertMap.parse_tile, h, h3]
  have e4 : RenderTileset.paletteOfRaw v = v / 4096 % 16 := by
    show (v >>> 12) &&& 15 = v / 4096 % 16
    rw [Nat.shiftRight_eq_div_pow, land_15]
  refine ⟨rfl, by simp [ConvertMap.parse_tile], by simp [ConvertMap.parse_tile], rfl, ?_⟩
  rw [e2, e3, e4, land_1023]
  omega

/-- C1 witness: the round-trip instantiated at `v = 0xABCD`. -/
theorem c1_witness :
    (0xABCD &&& 0x3FF) + 1024 * (if (ConvertMap.parse_tile 0xABCD).h_flip then 1 else 0)
      + 2048 * (if (ConvertMap.parse_tile 0xABCD).v_flip then 1 else 0)
      + 4096 * RenderTileset.paletteOfRaw 0xABCD = 0xABCD :=
  (c1_tileBitfield_roundtrip 0xABCD (by decide)).2.2.2.2

/-- C2: in the palette-baked compositing path, color index 0 is fully
transparent regardless of the palette contents, a nonzero index strictly inside
the palette is that entry at alpha 255, and an index at or beyond the palette's
length is opaque black rather than an error. -/
theorem c2_palette_baked_pixel (palette : List RenderTileset.RGB) (color_idx : Nat) :
    RenderTileset.renderPixel palette 0 = (0, 0, 0, 0) ∧
    (color_idx ≠ 0 → color_idx < palette.length →
      RenderTileset.renderPixel palette color_idx =
        ((palette.getD color_idx (0, 0, 0)).1, (palette.getD color_idx (0, 0, 0)).2.1,
          (palette.getD color_idx (0, 0, 0)).2.2, 255)) ∧
    (color_idx ≠ 0 → palette.length ≤ color_idx →
      RenderTileset.renderPixel palette color_idx = (0, 0, 0, 255)) := by
  refine ⟨rfl, fun h0 hlt => ?_, fun h0 hge => ?_⟩
  · simp [RenderTileset.renderPixel, h0, hlt]
  · simp [RenderTileset.renderPixel, h0, Nat.not_lt.mpr hge]

/-- C2 witness: a concrete palette, one in-bounds index and one out-of-bounds
index. -/
theorem c2_witness :
    RenderTileset.renderPixel [(10, 20, 30), (40, 50, 60)] 1 = (40, 50, 60, 255) ∧
    RenderTileset.renderPixel [(10, 20, 30), (40, 50, 60)] 5 = (0, 0, 0, 255) := by
  constructor
  · have h := (c2_palette_baked_pixel [(10, 20, 30), (40, 50, 60)] 1).2.1 (by decide) (by decide)
    exact h.trans (by decide)
  · exact (c2_palette_baked_pixel [(10, 20, 30), (40, 50, 60)] 5).2.2 (by decide) (by decide)

/-- C4: for every coordinate pair and 4-entry border pattern the lookup returns
`border[((x+1) % 2) + ((y+1) % 2) * 2]`; for `border = [A, B, C, D]` positions
`(0,0)`, `(1,0)`, `(0,1)`, `(1,1)` yield `D`, `C`, `B`, `A`. -/
theorem c4_border_checkerboard :
    (∀ (border : List Nat) (x y : Nat), border.length = 4 →
      BorderFix.get_border_metatile border x y
        = some (border.getD ((x + 1) % 2 + (y + 1) % 2 * 2) 0)) ∧
    ∀ (A B C D : Nat),
      BorderFix.get_border_metatile [A, B, C, D] 0 0 = some D ∧
      BorderFix.get_border_metatile [A, B, C, D] 1 0 = some C ∧
      BorderFix.get_border_metatile [A, B, C, D] 0 1 = some B ∧
      BorderFix.get_border_metatile [A, B, C, D] 1 1 = some A := by
  constructor
  · intro border x y h
    simp [BorderFix.get_border_metatile, h, Nat.and_one_is_mod]
  · intro A B C D
    exact ⟨rfl, rfl, rfl, rfl⟩

/-- C4 witness: the general formula instantiated at a concrete pattern and
position. -/
theorem c4_witness : BorderFix.get_border_metatile [10, 20, 30, 40] 5 7 = some 10 := by
  have h := c4_border_checkerboard.1 [10, 20, 30, 40] 5 7 (by decide)
  exact h.trans (by decide)

/-- C7 counterexample: with a palette store holding only key 1, requesting the
absent key 2 raises a `KeyError` (modelled `none`) instead of falling back to
the lowest available key 1: `palettes.get(palette_idx, palettes[0])` evaluates
`palettes[0]` on a store without key 0. -/
theorem c7_counterexample :
    RenderTileset.resolvePalette [(1, [(10, 20, 30)])] 2 = none := rfl

/-- C7 amended: palette lookup falls back to the palette stored at key 0 (not the
lowest-numbered available key) when the requested key is absent, and raises
whenever key 0 is absent from the store. -/
theorem c7_fallback_is_key_zero (s : RenderTileset.PaletteStore) (k : Nat) :
    (∀ d, List.lookup 0 s = some d →
      RenderTileset.resolvePalette s k = some ((List.lookup k s).getD d)) ∧
    (List.lookup 0 s = none → RenderTileset.resolvePalette s k = none) := by
  constructor
  · intro d hd
    simp [RenderTileset.resolvePalette, hd]
  · intro h
    simp [RenderTileset.resolvePalette, h]

/-- C7 witness: a store with keys 0 and 3; the absent key 7 resolves to the
palette at key 0. -/
theorem c7_witness :
    RenderTileset.resolvePalette [(0, [(1, 1, 1)]), (3, [(2, 2, 2)])] 7 = some [(1, 1, 1)] := by
  have h := (c7_fallback_is_key_zero [(0, [(1, 1, 1)]), (3, [(2, 2, 2)])] 7).1 [(1, 1, 1)] (by decide)
  exact h.trans (by decide)

theorem scanTiles_eq_find (tiles : List Nat) (t : Nat) :
    RenderTileset.scanTiles tiles t
      = ((tiles.find? fun raw => RenderTileset.tileIdOfRaw raw == t).map
          RenderTileset.paletteOfRaw) := by
  induction tiles with
  | nil => rfl
  | cons a rest ih =>
    by_cases h : RenderTileset.tileIdOfRaw a = t
    · simp [RenderTileset.scanTiles, h]
    · simp [RenderTileset.scanTiles, h, ih]

theorem findSome?_map_find?_flatMap (l : List α) (f : α → List Nat) (p : Nat → Bool)
    (g : Nat → Nat) :
    (l.findSome? fun i => ((f i).find? p).map g) = ((l.flatMap f).find? p).map g := by
  induction l with
  | nil => rfl
  | cons a rest ih =>
    rw [List.flatMap_cons, List.find?_append]
    cases h : (f a).find? p with
    | some raw => simp [List.findSome?_cons, h]
    | none => simp [List.findSome?_cons, h, ih]

/-- C3: the palette key chosen for an absolute tile index is the 4-bit palette
field of the first tile word, in metatile-record order and within a record in
unpack (quadrant) order, whose tile index matches, and 0 when nothing matches. -/
theorem c3_first_match_palette (data : List Nat) (tile_idx : Nat) :
    RenderTileset.get_tile_palette_index data tile_idx
      = RenderTileset.firstMatchPalette data tile_idx := by
  unfold RenderTileset.get_tile_palette_index RenderTileset.firstMatchPalette
    RenderTileset.allTileWords
  rw [show (fun i => RenderTileset.scanTiles (recordWords data i) tile_idx)
      = fun i => (((recordWords data i).find? fun raw =>
          RenderTileset.tileIdOfRaw raw == tile_idx).map RenderTileset.paletteOfRaw) from
    funext fun i => scanTiles_eq_find _ _]
  rw [findSome?_map_find?_flatMap]
  cases h : ((List.range (data.length / 16)).flatMap (recordWords data)).find? fun raw =>
      RenderTileset.tileIdOfRaw raw == tile_idx with
  | some raw => simp [h]
  | none => simp [h]

/-- C5 evidence: for the 2x2 grid of metatile ids `[0, 1, 5, 0]` with border
pattern `[2, 3, 4, 5]` and valid records 0-5, `convert_pokeemerald_map`'s layer
assembly emits the tile refs decoded straight from ids 0, 1 and 5
(`apply_border_fallback` is never invoked), while the border replacement the
claim describes would yield a different grid. -/
theorem c5_assembler_skips_border_fallback :
    ConvertMap.bottomLayerData Scenario.c5MapData Scenario.c5Tileset
        = [1, 2, 9, 10, 3, 4, 11, 12, 41, 42, 1, 2, 43, 44, 3, 4] ∧
    BorderFix.apply_border_fallback Scenario.c5MapData (some Scenario.c5BorderPattern) 2
        = some [[5, 4], [5, 2]] ∧
    ConvertMap.bottomLayerData [[5, 4], [5, 2]] Scenario.c5Tileset
        = [41, 42, 33, 34, 43, 44, 35, 36, 41, 42, 17, 18, 43, 44, 19, 20] ∧
    ConvertMap.bottomLayerData Scenario.c5MapData Scenario.c5Tileset
        ≠ ConvertMap.bottomLayerData [[5, 4], [5, 2]] Scenario.c5Tileset := by
  refine ⟨by decide, by decide, by decide, by decide⟩

theorem attributeWords_length : ∀ l : List Nat, (ConvertMap.attributeWords l).length = l.length / 2
  | [] => by simp [ConvertMap.attributeWords]
  | [_] => by simp [ConvertMap.attributeWords]
  | _ :: _ :: rest => by
    have ih := attributeWords_length rest
    simp [ConvertMap.attributeWords, ih]
    omega

theorem loadMapMetatiles_getElem (md ad : List Nat) (mid : Nat) (h : mid < md.length / 16) :
    (ConvertMap.loadMapMetatiles md ad)[mid]? = some
      { metatile_id := mid
        tiles := ((recordWords md mid).take 4).map ConvertMap.parse_tile
        top_tiles := ((recordWords md mid).drop 4).map ConvertMap.parse_tile
        behavior := (((ConvertMap.attributeWords ad).map ConvertMap.MetatileAttributesM.ofRaw).getD
            mid (ConvertMap.MetatileAttributesM.ofRaw 0)).behavior
        layer_type := (((ConvertMap.attributeWords ad).map
            ConvertMap.MetatileAttributesM.ofRaw).getD mid
            (ConvertMap.MetatileAttributesM.ofRaw 0)).layer_type } := by
  unfold ConvertMap.loadMapMetatiles
  simp [List.getElem?_range h]

theorem from_bytes_zero (l : List Nat) (h : ∀ b ∈ l, b = 0) :
    ConvertTileset.MetatileAttributesT.from_bytes l = ⟨0, 0, 0, 0⟩ := by
  have hg : ∀ n : Nat, l[n]?.getD 0 = 0 := by
    intro n
    cases hq : l[n]? with
    | none => rfl
    | some b => simp [h b (List.getElem?_mem hq)]
  unfold ConvertTileset.MetatileAttributesT.from_bytes u16le
  simp [hg]

/-- C6: when the attributes buffer is shorter than `N * record_size` for a
metatile table implying `N` records, both attribute decoders still produce
exactly `N` records, with every record lying wholly beyond the supplied bytes
equal to the all-zero default (behavior 0, layer type 0). -/
theorem c6_truncated_attributes :
    (∀ metatilesData attributesData : List Nat,
      attributesData.length < metatilesData.length / 16 * 2 →
      (ConvertMap.loadMapMetatiles metatilesData attributesData).length
          = metatilesData.length / 16 ∧
      ∀ mid, mid < metatilesData.length / 16 → attributesData.length ≤ 2 * mid →
        ∃ d, (ConvertMap.loadMapMetatiles metatilesData attributesData)[mid]? = some d ∧
          d.behavior = 0 ∧ d.layer_type = 0) ∧
    (∀ (metatilesLen : Nat) (attributesData : List Nat),
      attributesData.length < metatilesLen / 8 * 4 →
      (ConvertTileset.parseAttributes metatilesLen attributesData).length = metatilesLen / 8 ∧
      ∀ i, i < metatilesLen / 8 → attributesData.length ≤ 4 * i →
        (ConvertTileset.parseAttributes metatilesLen attributesData)[i]?
          = some ⟨0, 0, 0, 0⟩) := by
  constructor
  · intro md ad hlt
    refine ⟨by simp [ConvertMap.loadMapMetatiles], fun mid hmid hbey => ?_⟩
    refine ⟨_, loadMapMetatiles_getElem md ad mid hmid, ?_, ?_⟩ <;>
    · have hlen : ((ConvertMap.attributeWords ad).map
          ConvertMap.MetatileAttributesM.ofRaw).length ≤ mid := by
        simp [attributeWords_length]
        omega
      rw [List.getD_eq_getElem?_getD, List.getElem?_eq_none hlen]
      rfl
  · intro mlen ad hlt
    constructor
    · simp only [ConvertTileset.parseAttributes]
      rw [if_pos hlt]
      simp only [List.length_map, List.length_range, List.length_append, List.length_replicate]
      omega
    · intro i hi hbey
      simp only [ConvertTileset.parseAttributes]
      rw [if_pos hlt]
      have hcount : i < (min (ad ++ List.replicate (4 * (mlen / 8 - ad.length / 4)) 0).length
          (mlen / 8 * 4) + 3) / 4 := by
        simp only [List.length_append, List.length_replicate]
        omega
      rw [List.getElem?_map, List.getElem?_range hcount]
      have hz : ∀ b ∈ (((ad ++ List.replicate (4 * (mlen / 8 - ad.length / 4)) 0).drop
            (4 * i)).take 4)
          ++ List.replicate (4 - (((ad ++ List.replicate (4 * (mlen / 8 - ad.length / 4)) 0).drop
            (4 * i)).take 4).length) 0, b = 0 := by
        intro b hb
        rcases List.mem_append.mp hb with hb | hb
        · have hb1 := List.mem_of_mem_take hb
          have hdrop : (ad ++ List.replicate (4 * (mlen / 8 - ad.length / 4)) 0).drop (4 * i)
              = (List.replicate (4 * (mlen / 8 - ad.length / 4)) 0).drop (4 * i - ad.length) := by
            have hsplit : 4 * i = ad.length + (4 * i - ad.length) := by omega
            nth_rewrite 1 [hsplit]
            rw [← List.drop_drop, List.drop_left]
          rw [hdrop] at hb1
          exact List.eq_of_mem_replicate (List.mem_of_mem_drop hb1)
        · exact List.eq_of_mem_replicate hb
      simp only [Option.map_some']
      exact congrArg some (from_bytes_zero _ hz)

/-- C6 witness: a 32-byte metatile table (2 records) with a 1-byte attributes
buffer for the map decoder, and a 16-byte table (2 records) with a 1-byte
buffer for the tileset decoder. -/
theorem c6_witness :
    (ConvertMap.loadMapMetatiles (List.replicate 32 0) [7]).length = 2 ∧
    (∃ d, (ConvertMap.loadMapMetatiles (List.replicate 32 0) [7])[1]? = some d ∧
      d.behavior = 0 ∧ d.layer_type = 0) ∧
    (ConvertTileset.parseAttributes 16 [9]).length = 2 ∧
    (ConvertTileset.parseAttributes 16 [9])[1]? = some ⟨0, 0, 0, 0⟩ := by
  have h1 := c6_truncated_attributes.1 (List.replicate 32 0) [7] (by decide)
  have h2 := c6_truncated_attributes.2 16 [9] (by decide)
  refine ⟨?_, ?_, ?_, ?_⟩
  · simpa using h1.1
  · simpa using h1.2 1 (by decide) (by decide)
  · simpa using h2.1
  · simpa using h2.2 1 (by decide) (by decide)

/-- C8 counterexample: a container whose IHDR declares bit depth 8 and color
type 6 (truecolor with alpha) is decoded successfully — its pixel data is
silently reinterpreted as 4-bit indexed — instead of raising an error. -/
theorem c8_counterexample :
    RenderTileset.read_png_indexed_data Scenario.c8Inflate Scenario.c8BadModeData
      = some (8, 1, [[10, 11, 12, 13, 14, 15, 1, 2]], none) := by decide

/-- C8 amended: the indexed-path decoder validates only the 8-byte signature and
never inspects the IHDR bit-depth or color-type bytes: any buffer with a valid
signature whose collected image data decompresses successfully is decoded
(reinterpreted as 4-bit indexed), whatever color mode it declares. -/
theorem c8_no_mode_check (inflate : List Nat → Option (List Nat)) (png_data raw : List Nat)
    (hmagic : png_data.take 8 = RenderTileset.pngMagic)
    (hinf : inflate (RenderTileset.collectChunks png_data png_data.length 8).2 = some raw) :
    RenderTileset.read_png_indexed_data inflate png_data
      = some (u32be png_data 16, u32be png_data 20,
          RenderTileset.parseScanlines raw (u32be png_data 16) (u32be png_data 20),
          (RenderTileset.collectChunks png_data png_data.length 8).1) := by
  unfold RenderTileset.read_png_indexed_data
  rw [if_neg (by simp [hmagic])]
  simp [hinf]

/-- C8 witness: the amended theorem applied to the concrete truecolor-mode
container. -/
theorem c8_witness :
    RenderTileset.read_png_indexed_data Scenario.c8Inflate Scenario.c8BadModeData
      = some (8, 1, RenderTileset.parseScanlines [0, 171, 205, 239, 18] 8 1, none) := by
  have h := c8_no_mode_check Scenario.c8Inflate Scenario.c8BadModeData [0, 171, 205, 239, 18]
    (by decide) (by decide)
  exact h.trans (by decide)

theorem collectSome_all_some (f : α → Option β) (l : List α) (h : ∀ a ∈ l, (f a).isSome) :
    ∃ bs, collectSome f l = some bs ∧ bs.length = l.length := by
  induction l with
  | nil => exact ⟨[], rfl, rfl⟩
  | cons a as ih =>
    obtain ⟨b, hb⟩ := Option.isSome_iff_exists.mp (h a (List.mem_cons_self a as))
    obtain ⟨bs, hbs, hlen⟩ := ih fun x hx => h x (List.mem_cons_of_mem a hx)
    exact ⟨b :: bs, by simp [collectSome, hb, hbs], by simp [hlen]⟩

theorem collectSome_eq_none (f : α → Option β) (l : List α) (a : α)
    (ha : a ∈ l) (hfa : f a = none) : collectSome f l = none := by
  induction l with
  | nil => cases ha
  | cons x xs ih =>
    rcases List.mem_cons.mp ha with rfl | hmem
    · simp [collectSome, hfa]
    · cases hfx : f x with
      | none => simp [collectSome, hfx]
      | some b => simp [collectSome, hfx, ih hmem]

theorem load_metatiles_eq (md : List Nat) (af : Option (List Nat)) :
    ConvertTileset.load_metatiles md af = collectSome (fun idx =>
      ConvertTileset.MetatileT.from_bytes ((md.drop (8 * idx)).take 8)
        ((ConvertTileset.parseAttributes md.length
          (af.getD (List.replicate (4 * (md.length / 8)) 0))).getD idx ⟨0, 0, 0, 0⟩))
      (List.range ((md.length + 7) / 8)) := by
  cases af <;> rfl

/-- C9 counterexample: a 10-byte metatile buffer (one whole 8-byte record plus a
2-byte remainder) makes `convert_tileset_8x8.load_metatiles` raise a
`struct.error` (modelled `none`) instead of discarding the remainder. -/
theorem c9_counterexample :
    ConvertTileset.load_metatiles (List.replicate 10 0) (some []) = none := by decide

/-- C9 amended: the map converter's decoders discard any trailing remainder and
never raise (`⌊len/16⌋` metatile records, `⌊len/2⌋` attribute words); the
tileset converter's metatile decoder instead succeeds exactly on buffers whose
length is a multiple of 8, producing `len/8` whole records, and raises
otherwise.  No decoder ever produces a partially decoded record. -/
theorem c9_whole_records_decoders :
    (∀ metatilesData attributesData : List Nat,
      (ConvertMap.loadMapMetatiles metatilesData attributesData).length
          = metatilesData.length / 16 ∧
      (ConvertMap.attributeWords attributesData).length = attributesData.length / 2) ∧
    (∀ (metatilesData : List Nat) (attributesFile : Option (List Nat)),
      metatilesData.length % 8 = 0 →
      ∃ ms, ConvertTileset.load_metatiles metatilesData attributesFile = some ms ∧
        ms.length = metatilesData.length / 8) ∧
    (∀ (metatilesData : List Nat) (attributesFile : Option (List Nat)),
      metatilesData.length % 8 ≠ 0 →
      ConvertTileset.load_metatiles metatilesData attributesFile = none) := by
  refine ⟨fun md ad => ⟨by simp [ConvertMap.loadMapMetatiles], attributeWords_length ad⟩,
    fun md af h8 => ?_, fun md af h8 => ?_⟩
  · rw [load_metatiles_eq]
    have hall : ∀ idx ∈ List.range ((md.length + 7) / 8),
        (ConvertTileset.MetatileT.from_bytes ((md.drop (8 * idx)).take 8)
          ((ConvertTileset.parseAttributes md.length
            (af.getD (List.replicate (4 * (md.length / 8)) 0))).getD idx
              ⟨0, 0, 0, 0⟩)).isSome := by
      intro idx hidx
      have hidx1 := List.mem_range.mp hidx
      have hchunk : ((md.drop (8 * idx)).take 8).length = 8 := by
        simp
        omega
      simp [ConvertTileset.MetatileT.from_bytes, hchunk]
    obtain ⟨bs, hbs, hlen⟩ := collectSome_all_some _ _ hall
    refine ⟨bs, hbs, ?_⟩
    simp at hlen
    omega
  · rw [load_metatiles_eq]
    apply collectSome_eq_none _ _ (md.length / 8)
    · exact List.mem_range.mpr (by omega)
    · simp [ConvertTileset.MetatileT.from_bytes]
      omega

/-- C9 witness: a 16-byte buffer (a multiple of the record size) decodes to
exactly 2 whole records. -/
theorem c9_witness :
    ∃ ms, ConvertTileset.load_metatiles (List.replicate 16 0) none = some ms ∧
      ms.length = 2 := by
  have h := c9_whole_records_decoders.2.1 (List.replicate 16 0) none (by decide)
  simpa using h

/-- C10: the per-cell metadata decodes `collision_bits` as bits 10-11,
`elevation` as bits 12-15, and sets `is_solid` exactly when both collision bits
are set. -/
theorem c10_cell_metadata (raw : Nat) :
    (ConvertMap.cellMetadata raw).metatile_id = raw % 1024 ∧
    (ConvertMap.cellMetadata raw).collision_bits = raw / 2 ^ 10 % 4 ∧
    (ConvertMap.cellMetadata raw).elevation = raw / 2 ^ 12 % 16 ∧
    ((ConvertMap.cellMetadata raw).is_solid = true ↔
      (ConvertMap.cellMetadata raw).collision_bits = 3) := by
  refine ⟨?_, ?_, ?_, ?_⟩
  · show raw &&& 1023 = raw % 1024
    exact land_1023 raw
  · show (raw >>> 10) &&& 3 = raw / 2 ^ 10 % 4
    rw [Nat.shiftRight_eq_div_pow, land_3]
  · show (raw >>> 12) &&& 15 = raw / 2 ^ 12 % 16
    rw [Nat.shiftRight_eq_div_pow, land_15]
  · simp [ConvertMap.cellMetadata]

end PokeSharp
